import Mathlib

/-!
Shallow embedding of `src/pipe.rs` from the `fifo-named-pipe` repository.

The repository wraps Unix named pipes (FIFOs): a `Pipe` owns a filesystem
path; `Reader`/`Writer` are views over a cloned copy of that path.  The
filesystem is modelled as an association list from path bytes to entries;
an entry records its kind (FIFO special file or regular file), its
permission mode and the bytes available to a read-to-EOF transaction.
Blocking/suspension timing is outside the embedding; each operation is
modelled by its effect on the filesystem state and its returned value.
Rust's `Result<T, E>` becomes `RResult ε α`; the two operations that can
panic (`Writer::write`, `Writer::write_str`, via `to_str().unwrap()`)
return an `Outcome` with an explicit `panic` constructor.
-/

namespace FifoPipe

/-- Kind of a filesystem entry: FIFO special file or regular file. -/
inductive EntryKind where
  | fifo
  | regular
  deriving DecidableEq, Repr

/-- A filesystem entry: its kind, its permission mode bits, and the bytes
a read-to-EOF on it returns (for a FIFO, the bytes of the current
write session). -/
structure Entry where
  kind : EntryKind
  mode : Nat
  content : List Nat
  deriving DecidableEq, Repr

/-- A filesystem path as its raw bytes (Rust `PathBuf` holds OS bytes,
which on Unix need not be valid UTF-8). -/
abbrev FsPath := List Nat

/-- The filesystem state: an association list from paths to entries. -/
abbrev FileSystem := List (FsPath × Entry)

/-- Look up the entry at a path. -/
def lookupEntry : FileSystem → FsPath → Option Entry
  | [], _ => none
  | (q, e) :: rest, p => if q = p then some e else lookupEntry rest p

/-- Insert or replace the entry at a path. -/
def setEntry : FileSystem → FsPath → Entry → FileSystem
  | [], p, e => [(p, e)]
  | (q, e') :: rest, p, e =>
      if q = p then (q, e) :: rest else (q, e') :: setEntry rest p e

/-- Remove the entry at a path (no-op when absent). -/
def removeEntry : FileSystem → FsPath → FileSystem
  | [], _ => []
  | (q, e') :: rest, p =>
      if q = p then removeEntry rest p else (q, e') :: removeEntry rest p

/-- Rust `Result<α, ε>`. -/
inductive RResult (ε : Type) (α : Type) where
  | ok (a : α)
  | err (e : ε)
  deriving DecidableEq, Repr

/-- Outcome of an operation that may also panic (Rust `unwrap` on `None`). -/
inductive Outcome (ε : Type) (α : Type) where
  | ok (a : α)
  | err (e : ε)
  | panic
  deriving DecidableEq, Repr

/-- The `std::io::Error` kinds this code can produce. -/
inductive IoError where
  | notFound
  | invalidData
  deriving DecidableEq, Repr

/-- The `nix::Errno` values relevant to `mkfifo`. -/
inductive Errno where
  | eexist
  deriving DecidableEq, Repr

/-- Rust `nix::sys::stat::Mode::from_bits_truncate`: keep only the known
permission bits (0o7777). -/
def modeFromBitsTruncate (m : Nat) : Nat := m % 4096

/-- Rust `nix::unistd::mkfifo`: fails with `EEXIST` when the path already has an
entry, otherwise creates a FIFO special file with the given mode and no
pending bytes. -/
def mkfifo (fs : FileSystem) (p : FsPath) (mode : Nat) :
    RResult Errno FileSystem :=
  match lookupEntry fs p with
  | some _ => .err .eexist
  | none => .ok (setEntry fs p ⟨.fifo, mode, []⟩)

/-- Rust `create_pipe(path, mode)`: `mkfifo` with the mode defaulting to
`Mode::from_bits_truncate(0o660)`. -/
def create_pipe (fs : FileSystem) (p : FsPath) (mode : Option Nat) :
    RResult Errno FileSystem :=
  mkfifo fs p (mode.getD (modeFromBitsTruncate 0o660))

/-- Rust `remove_pipe(path)` = `fs::remove_file`: fails with not-found when the
path has no entry, otherwise removes it. -/
def remove_pipe (fs : FileSystem) (p : FsPath) :
    RResult IoError FileSystem :=
  match lookupEntry fs p with
  | none => .err .notFound
  | some _ => .ok (removeEntry fs p)

/-- Rust `Pipe`: owns a path to a Unix named pipe. -/
structure Pipe where
  inner : FsPath
  deriving DecidableEq, Repr

/-- Rust `Pipe::new(path)`: pure construction from a path. -/
def Pipe.new (path : FsPath) : Pipe := ⟨path⟩

/-- Rust `Pipe::exists`: whether anything exists at the path. -/
def Pipe.exists (self : Pipe) (fs : FileSystem) : Bool :=
  (lookupEntry fs self.inner).isSome

/-- Rust `Pipe::ensure_exists`: create the FIFO (default mode) when the path has
no entry; success no-op otherwise. -/
def Pipe.ensure_exists (self : Pipe) (fs : FileSystem) :
    RResult Errno FileSystem :=
  if ¬ self.exists fs then create_pipe fs self.inner none
  else .ok fs

/-- Rust `Pipe::delete` (consumes the handle in Rust): remove the entry when the
path exists; success no-op otherwise. -/
def Pipe.delete (self : Pipe) (fs : FileSystem) :
    RResult IoError FileSystem :=
  if (lookupEntry fs self.inner).isSome then remove_pipe fs self.inner
  else .ok fs

/-- Rust `Reader`: wraps a clone of the `Pipe`. -/
structure Reader where
  path : Pipe
  deriving DecidableEq, Repr

/-- Rust `Writer`: wraps a clone of the `Pipe`. -/
structure Writer where
  path : Pipe
  deriving DecidableEq, Repr

/-- Rust `Reader::from_path`: clone the given `Pipe`. -/
def Reader.from_path (source : Pipe) : Reader := ⟨source⟩

/-- Rust `Writer::from_path`: clone the given `Pipe`. -/
def Writer.from_path (source : Pipe) : Writer := ⟨source⟩

/-- Rust `Pipe::reader`. -/
def Pipe.reader (self : Pipe) : Reader := Reader.from_path self

/-- Rust `Pipe::writer`. -/
def Pipe.writer (self : Pipe) : Writer := Writer.from_path self

/-! ### UTF-8

Rust's `String::from_utf8` / `read_to_string` validation and `str` encoding
(RFC 3629: shortest form, no surrogates, max U+10FFFF), over byte lists and
codepoint lists. -/

/-- A UTF-8 continuation byte: `0x80 ≤ b < 0xC0`. -/
def isCont (b : Nat) : Bool := 0x80 ≤ b && b < 0xC0

/-- Valid second byte of a three-byte sequence led by `b0` (excludes
overlong forms for `0xE0` and surrogates for `0xED`). -/
def valid3Snd (b0 b1 : Nat) : Bool :=
  if b0 = 0xE0 then 0xA0 ≤ b1 && b1 < 0xC0
  else if b0 = 0xED then 0x80 ≤ b1 && b1 < 0xA0
  else isCont b1

/-- Valid second byte of a four-byte sequence led by `b0` (excludes
overlong forms for `0xF0` and codepoints above U+10FFFF for `0xF4`). -/
def valid4Snd (b0 b1 : Nat) : Bool :=
  if b0 = 0xF0 then 0x90 ≤ b1 && b1 < 0xC0
  else if b0 = 0xF4 then 0x80 ≤ b1 && b1 < 0x90
  else isCont b1

/-- Fuel-driven UTF-8 decoder (structural recursion on the fuel so the
kernel can evaluate it); decodes a byte list to its codepoints, `none` on
invalid input.  Each step consumes at least one byte and one fuel unit, so
fuel equal to the list length suffices. -/
def utf8DecodeAux : Nat → List Nat → Option (List Nat)
  | _, [] => some []
  | 0, _ :: _ => none
  | fuel + 1, b0 :: rest =>
    if b0 < 0x80 then
      (utf8DecodeAux fuel rest).map (fun cs => b0 :: cs)
    else if b0 < 0xC2 then none
    else if b0 < 0xE0 then
      match rest with
      | b1 :: rest2 =>
        if isCont b1 then
          (utf8DecodeAux fuel rest2).map
            (fun cs => ((b0 - 0xC0) * 64 + (b1 - 0x80)) :: cs)
        else none
      | [] => none
    else if b0 < 0xF0 then
      match rest with
      | b1 :: b2 :: rest3 =>
        if valid3Snd b0 b1 && isCont b2 then
          (utf8DecodeAux fuel rest3).map
            (fun cs =>
              ((b0 - 0xE0) * 4096 + (b1 - 0x80) * 64 + (b2 - 0x80)) :: cs)
        else none
      | _ => none
    else if b0 < 0xF5 then
      match rest with
      | b1 :: b2 :: b3 :: rest4 =>
        if valid4Snd b0 b1 && isCont b2 && isCont b3 then
          (utf8DecodeAux fuel rest4).map
            (fun cs =>
              ((b0 - 0xF0) * 262144 + (b1 - 0x80) * 4096 +
                (b2 - 0x80) * 64 + (b3 - 0x80)) :: cs)
        else none
      | _ => none
    else none

/-- Decode a byte list as UTF-8. -/
def utf8Decode (l : List Nat) : Option (List Nat) := utf8DecodeAux l.length l

/-- Whether a byte list is valid UTF-8 (on Unix, `Path::to_str` succeeds
exactly on such paths). -/
def validUtf8 (l : List Nat) : Bool := (utf8Decode l).isSome

/-- UTF-8 encoding of one codepoint. -/
def utf8EncodeChar (c : Nat) : List Nat :=
  if c < 0x80 then [c]
  else if c < 0x800 then [0xC0 + c / 64, 0x80 + c % 64]
  else if c < 0x10000 then
    [0xE0 + c / 4096, 0x80 + (c / 64) % 64, 0x80 + c % 64]
  else
    [0xF0 + c / 262144, 0x80 + (c / 4096) % 64, 0x80 + (c / 64) % 64,
      0x80 + c % 64]

/-- UTF-8 encoding of a codepoint list (Rust `str::as_bytes` on a string
modelled by its codepoints). -/
def utf8Encode (s : List Nat) : List Nat := (s.map utf8EncodeChar).flatten

/-! ### Reader operations -/

/-- Rust `std::fs::read` / `tokio::fs::read` on the model: not-found when the
path has no entry, otherwise all bytes accumulated up to end-of-stream. -/
def fsRead (fs : FileSystem) (p : FsPath) : RResult IoError (List Nat) :=
  match lookupEntry fs p with
  | none => .err .notFound
  | some e => .ok e.content

/-- Rust `std::fs::read_to_string` / `tokio::fs::read_to_string` on the model:
read all bytes, then require them to be valid UTF-8; `InvalidData`
otherwise. -/
def fsReadToString (fs : FileSystem) (p : FsPath) :
    RResult IoError (List Nat) :=
  match lookupEntry fs p with
  | none => .err .notFound
  | some e =>
    match utf8Decode e.content with
    | none => .err .invalidData
    | some cs => .ok cs

/-- Rust `Reader::pipe_exists`: `ensure_exists` on the wrapped path, then
`Ok(&self)`; the returned reader is the receiver itself. -/
def Reader.pipe_exists (self : Reader) (fs : FileSystem) :
    RResult Errno (FileSystem × Reader) :=
  match self.path.ensure_exists fs with
  | .err e => .err e
  | .ok fs' => .ok (fs', self)

/-- Rust `Reader::read` (blocking): `std::fs::read(&self.path.inner)`. -/
def Reader.read (self : Reader) (fs : FileSystem) :
    RResult IoError (List Nat) :=
  fsRead fs self.path.inner

/-- Rust `Reader::async_read`: `tokio::fs::read(&self.path.inner)`. -/
def Reader.async_read (self : Reader) (fs : FileSystem) :
    RResult IoError (List Nat) :=
  fsRead fs self.path.inner

/-- Rust `Reader::string` (blocking): `std::fs::read_to_string`. -/
def Reader.string (self : Reader) (fs : FileSystem) :
    RResult IoError (List Nat) :=
  fsReadToString fs self.path.inner

/-- Rust `Reader::async_read_str`: `tokio::fs::read_to_string`. -/
def Reader.async_read_str (self : Reader) (fs : FileSystem) :
    RResult IoError (List Nat) :=
  fsReadToString fs self.path.inner

/-! ### Writer operations -/

/-- Effect of `write_all(data)` after opening an entry for writing without
truncation: a FIFO carries exactly the session's bytes; a regular file is
overwritten from offset 0, keeping any longer tail. -/
def writeAllAt (e : Entry) (data : List Nat) : Entry :=
  match e.kind with
  | .fifo => { e with content := data }
  | .regular => { e with content := data ++ e.content.drop data.length }

/-- Rust `Writer::_write`: `OpenOptions::new().write(true).create(false).open`
(not-found when the path has no entry), then `write_all(data)`. -/
def Writer._write (self : Writer) (fs : FileSystem) (data : List Nat) :
    RResult IoError FileSystem :=
  match lookupEntry fs self.path.inner with
  | none => .err .notFound
  | some e => .ok (setEntry fs self.path.inner (writeAllAt e data))

/-- Rust `Writer::pipe_exists`: `ensure_exists` on the wrapped path, then
`Ok(&self)`. -/
def Writer.pipe_exists (self : Writer) (fs : FileSystem) :
    RResult Errno (FileSystem × Writer) :=
  match self.path.ensure_exists fs with
  | .err e => .err e
  | .ok fs' => .ok (fs', self)

/-- Rust `std::fs::File::create(path)` followed by `write_all(data)`: creates a
regular file (mode 0o666 before umask) when the path is absent; when an
entry exists, opens it for writing with truncation, so its content becomes
exactly `data` and its kind and mode are kept. -/
def fileCreateWriteAll (fs : FileSystem) (p : FsPath) (data : List Nat) :
    RResult IoError FileSystem :=
  match lookupEntry fs p with
  | none => .ok (setEntry fs p ⟨.regular, 0o666, data⟩)
  | some e => .ok (setEntry fs p ⟨e.kind, e.mode, data⟩)

/-- Rust `Writer::write` (blocking): `File::create(self.path.inner.to_str()
.unwrap())` — panics when the path is not valid UTF-8 — then
`write_all(data)`. -/
def Writer.write (self : Writer) (fs : FileSystem) (data : List Nat) :
    Outcome IoError FileSystem :=
  if validUtf8 self.path.inner then
    match fileCreateWriteAll fs self.path.inner data with
    | .ok fs' => .ok fs'
    | .err e => .err e
  else .panic

/-- Rust `Writer::async_write`: delegates to `_write`. -/
def Writer.async_write (self : Writer) (fs : FileSystem)
    (data : List Nat) : RResult IoError FileSystem :=
  self._write fs data

/-- Rust `Writer::write_str` (blocking): same open as `Writer::write` (with the
same `unwrap`), writing `data.as_bytes()`. -/
def Writer.write_str (self : Writer) (fs : FileSystem) (data : List Nat) :
    Outcome IoError FileSystem :=
  if validUtf8 self.path.inner then
    match fileCreateWriteAll fs self.path.inner (utf8Encode data) with
    | .ok fs' => .ok fs'
    | .err e => .err e
  else .panic

/-- Rust `Writer::async_write_str`: `_write(data.as_bytes())`. -/
def Writer.async_write_str (self : Writer) (fs : FileSystem)
    (data : List Nat) : RResult IoError FileSystem :=
  self._write fs (utf8Encode data)

/-! ### Filesystem lemmas -/

theorem lookupEntry_setEntry (fs : FileSystem) (p q : FsPath) (e : Entry) :
    lookupEntry (setEntry fs p e) q =
      if p = q then some e else lookupEntry fs q := by
  induction fs with
  | nil =>
    by_cases h : p = q <;> simp [setEntry, lookupEntry, h]
  | cons hd tl ih =>
    obtain ⟨r, e'⟩ := hd
    simp only [setEntry]
    by_cases hrp : r = p
    · simp only [if_pos hrp, lookupEntry]
      by_cases hpq : p = q
      · simp [hrp.trans hpq, hpq]
      · have hrq : ¬ r = q := fun h => hpq (hrp.symm.trans h)
        simp [hrq, hpq]
    · simp only [if_neg hrp, lookupEntry]
      by_cases hrq : r = q
      · have hpq : ¬ p = q := fun h => hrp (hrq.trans h.symm)
        simp [hrq, hpq]
      · simp [hrq, ih]

theorem lookupEntry_removeEntry (fs : FileSystem) (p q : FsPath) :
    lookupEntry (removeEntry fs p) q =
      if p = q then none else lookupEntry fs q := by
  induction fs with
  | nil => by_cases h : p = q <;> simp [removeEntry, lookupEntry, h]
  | cons hd tl ih =>
    obtain ⟨r, e'⟩ := hd
    simp only [removeEntry]
    by_cases hrp : r = p
    · simp only [if_pos hrp, ih]
      by_cases hpq : p = q
      · simp [hpq]
      · have hrq : ¬ r = q := fun h => hpq (hrp.symm.trans h)
        simp [hpq, lookupEntry, hrq]
    · simp only [if_neg hrp, lookupEntry]
      by_cases hrq : r = q
      · have hpq : ¬ p = q := fun h => hrp (hrq.trans h.symm)
        simp [hrq, hpq]
      · simp [hrq, ih]

theorem exists_iff_lookup_isSome (pi : Pipe) (fs : FileSystem) :
    pi.exists fs = (lookupEntry fs pi.inner).isSome := rfl

theorem ensure_exists_of_absent (pi : Pipe) (fs : FileSystem)
    (h : lookupEntry fs pi.inner = none) :
    pi.ensure_exists fs = .ok (setEntry fs pi.inner ⟨.fifo, 0o660, []⟩) := by
  have hmode : modeFromBitsTruncate 0o660 = 0o660 := by decide
  simp [Pipe.ensure_exists, Pipe.exists, h, create_pipe, mkfifo, hmode]

theorem ensure_exists_of_present (pi : Pipe) (fs : FileSystem)
    (h : (lookupEntry fs pi.inner).isSome = true) :
    pi.ensure_exists fs = .ok fs := by
  simp [Pipe.ensure_exists, Pipe.exists, h]

theorem lookup_of_exists_false (pi : Pipe) (fs : FileSystem)
    (h : pi.exists fs = false) : lookupEntry fs pi.inner = none := by
  rw [exists_iff_lookup_isSome] at h
  cases hc : lookupEntry fs pi.inner
  · rfl
  · rw [hc] at h
    exact absurd h (by simp)

/-! ### Claim theorems -/

/-- Claim C4: for every path, `ensure_exists` creates a FIFO special file
with permission mode 0o660 (rw-rw----) when `exists()` is false, and is a
success-returning no-op leaving the filesystem unchanged when the path
already exists, regardless of the existing entry's kind; hence after a
successful call, a second call never errors and changes nothing. -/
theorem ensure_exists_spec (fs : FileSystem) (pi : Pipe) :
    (pi.exists fs = false →
      pi.ensure_exists fs =
        .ok (setEntry fs pi.inner ⟨.fifo, 0o660, []⟩)) ∧
    (pi.exists fs = true → pi.ensure_exists fs = .ok fs) ∧
    (∀ fs', pi.ensure_exists fs = .ok fs' →
      pi.ensure_exists fs' = .ok fs') := by
  refine ⟨?_, ?_, ?_⟩
  · intro h
    exact ensure_exists_of_absent pi fs (lookup_of_exists_false pi fs h)
  · intro h
    rw [exists_iff_lookup_isSome] at h
    exact ensure_exists_of_present pi fs h
  · intro fs' hok
    by_cases hex : (lookupEntry fs pi.inner).isSome = true
    · rw [ensure_exists_of_present pi fs hex] at hok
      injection hok with h2
      subst h2
      exact ensure_exists_of_present pi fs hex
    · have hl : lookupEntry fs pi.inner = none := by
        cases hc : lookupEntry fs pi.inner
        · rfl
        · exact absurd (by simp [hc]) hex
      rw [ensure_exists_of_absent pi fs hl] at hok
      injection hok with h2
      subst h2
      apply ensure_exists_of_present
      simp [lookupEntry_setEntry]

/-- Witness for C4: on an empty filesystem the FIFO at path `[116]` is
created with mode 0o660. -/
theorem ensure_exists_spec_witness :
    (Pipe.new [116]).ensure_exists [] =
      .ok [([116], ⟨.fifo, 0o660, []⟩)] :=
  (ensure_exists_spec [] (Pipe.new [116])).1 (by decide)

/-- Claim C5: `delete` (which consumes the handle in the source) removes
the filesystem entry when the path exists, and succeeds as a no-op without
error when it does not. -/
theorem delete_spec (fs : FileSystem) (pi : Pipe) :
    (pi.exists fs = true →
      pi.delete fs = .ok (removeEntry fs pi.inner) ∧
      lookupEntry (removeEntry fs pi.inner) pi.inner = none) ∧
    (pi.exists fs = false → pi.delete fs = .ok fs) := by
  constructor
  · intro h
    rw [exists_iff_lookup_isSome] at h
    obtain ⟨e, he⟩ := Option.isSome_iff_exists.mp h
    constructor
    · simp [Pipe.delete, h, remove_pipe, he]
    · simp [lookupEntry_removeEntry]
  · intro h
    have hl := lookup_of_exists_false pi fs h
    simp [Pipe.delete, hl]

/-- Witness for C5: deleting an existing entry removes it; deleting on an
empty filesystem is a success no-op. -/
theorem delete_spec_witness :
    ((Pipe.new [116]).delete [([116], ⟨.fifo, 0o660, [7]⟩)] =
        .ok (removeEntry [([116], ⟨.fifo, 0o660, [7]⟩)] [116]) ∧
      lookupEntry (removeEntry [([116], ⟨.fifo, 0o660, [7]⟩)] [116]) [116] =
        none) ∧
    (Pipe.new [117]).delete [] = .ok [] :=
  ⟨(delete_spec [([116], ⟨.fifo, 0o660, [7]⟩)] (Pipe.new [116])).1
      (by decide),
    (delete_spec [] (Pipe.new [117])).2 (by decide)⟩

/-- Claim C9: `Pipe::new` is pure construction that records exactly the
given path and cannot fail; `reader()`/`writer()` take no filesystem
argument (no I/O) and wrap a structural copy of the handle's path, so each
view owns its path independently of the original handle. -/
theorem construction_pure_spec (p : FsPath) (pi : Pipe) :
    Pipe.new p = { inner := p } ∧
    (Pipe.reader pi).path = pi ∧
    (Pipe.writer pi).path = pi :=
  ⟨rfl, rfl, rfl⟩

theorem reader_pipe_exists_ok (r : Reader) (fs fs' : FileSystem)
    (r' : Reader) (h : r.pipe_exists fs = .ok (fs', r')) :
    r.path.ensure_exists fs = .ok fs' := by
  cases hc : r.path.ensure_exists fs with
  | err e => simp [Reader.pipe_exists, hc] at h
  | ok g =>
    simp [Reader.pipe_exists, hc] at h
    rw [h.1]

theorem writer_pipe_exists_ok (w : Writer) (fs fs' : FileSystem)
    (w' : Writer) (h : w.pipe_exists fs = .ok (fs', w')) :
    w.path.ensure_exists fs = .ok fs' := by
  cases hc : w.path.ensure_exists fs with
  | err e => simp [Writer.pipe_exists, hc] at h
  | ok g =>
    simp [Writer.pipe_exists, hc] at h
    rw [h.1]

/-- Claim C7: `pipe_exists` on a Reader or Writer runs `ensure_exists` on
the wrapped path, returns the receiver itself on success, and propagates
exactly the error of `ensure_exists`; when nothing exists at the path, a
successful call creates the FIFO, after which `exists` is true. -/
theorem pipe_exists_spec (fs : FileSystem) (r : Reader) (w : Writer) :
    (∀ fs', r.path.ensure_exists fs = .ok fs' ↔
      r.pipe_exists fs = .ok (fs', r)) ∧
    (∀ e, r.path.ensure_exists fs = .err e ↔ r.pipe_exists fs = .err e) ∧
    (r.path.exists fs = false →
      r.pipe_exists fs =
          .ok (setEntry fs r.path.inner ⟨.fifo, 0o660, []⟩, r) ∧
        r.path.exists (setEntry fs r.path.inner ⟨.fifo, 0o660, []⟩) =
          true) ∧
    (∀ fs', w.path.ensure_exists fs = .ok fs' ↔
      w.pipe_exists fs = .ok (fs', w)) ∧
    (∀ e, w.path.ensure_exists fs = .err e ↔ w.pipe_exists fs = .err e) ∧
    (w.path.exists fs = false →
      w.pipe_exists fs =
          .ok (setEntry fs w.path.inner ⟨.fifo, 0o660, []⟩, w) ∧
        w.path.exists (setEntry fs w.path.inner ⟨.fifo, 0o660, []⟩) =
          true) := by
  refine ⟨?_, ?_, ?_, ?_, ?_, ?_⟩
  · intro fs'
    constructor
    · intro h; simp [Reader.pipe_exists, h]
    · exact reader_pipe_exists_ok r fs fs' r
  · intro e
    constructor
    · intro h; simp [Reader.pipe_exists, h]
    · intro h
      cases hc : r.path.ensure_exists fs with
      | err e' => cases e; cases e'; rfl
      | ok g => simp [Reader.pipe_exists, hc] at h
  · intro h
    have hl := lookup_of_exists_false r.path fs h
    refine ⟨?_, ?_⟩
    · simp [Reader.pipe_exists, ensure_exists_of_absent r.path fs hl]
    · rw [exists_iff_lookup_isSome]
      simp [lookupEntry_setEntry]
  · intro fs'
    constructor
    · intro h; simp [Writer.pipe_exists, h]
    · exact writer_pipe_exists_ok w fs fs' w
  · intro e
    constructor
    · intro h; simp [Writer.pipe_exists, h]
    · intro h
      cases hc : w.path.ensure_exists fs with
      | err e' => cases e; cases e'; rfl
      | ok g => simp [Writer.pipe_exists, hc] at h
  · intro h
    have hl := lookup_of_exists_false w.path fs h
    refine ⟨?_, ?_⟩
    · simp [Writer.pipe_exists, ensure_exists_of_absent w.path fs hl]
    · rw [exists_iff_lookup_isSome]
      simp [lookupEntry_setEntry]

/-- Witness for C7: on the empty filesystem, `pipe_exists` on a Reader at
path `[118]` creates the FIFO and returns the reader itself. -/
theorem pipe_exists_spec_witness :
    (Reader.from_path (Pipe.new [118])).pipe_exists [] =
        .ok ([([118], ⟨.fifo, 0o660, []⟩)],
          Reader.from_path (Pipe.new [118])) ∧
      (Pipe.new [118]).exists [([118], ⟨.fifo, 0o660, []⟩)] = true :=
  ((pipe_exists_spec [] (Reader.from_path (Pipe.new [118]))
      (Writer.from_path (Pipe.new [118]))).2.2.1 (by decide))

theorem ensure_exists_created_entry (pi : Pipe) (fs fs' : FileSystem)
    (hok : pi.ensure_exists fs = .ok fs') (q : FsPath) (e : Entry)
    (h0 : lookupEntry fs q = none) (h1 : lookupEntry fs' q = some e) :
    e.kind = .fifo ∧ e.mode = 0o660 := by
  by_cases hex : (lookupEntry fs pi.inner).isSome = true
  · rw [ensure_exists_of_present pi fs hex] at hok
    injection hok with h2
    subst h2
    rw [h0] at h1
    exact absurd h1 (by simp)
  · have hl : lookupEntry fs pi.inner = none := by
      cases hc : lookupEntry fs pi.inner
      · rfl
      · exact absurd (by simp [hc]) hex
    rw [ensure_exists_of_absent pi fs hl] at hok
    injection hok with h2
    subst h2
    rw [lookupEntry_setEntry] at h1
    by_cases hq : pi.inner = q
    · rw [if_pos hq] at h1
      injection h1 with h3
      subst h3
      exact ⟨rfl, rfl⟩
    · rw [if_neg hq, h0] at h1
      exact absurd h1 (by simp)

/-- Claim C10: the internal creation primitive `create_pipe` takes an
optional mode and passes a provided mode through, but the only default is
`from_bits_truncate 0o660 = 0o660`, and every entry that appears on the
filesystem through the public creation paths (`ensure_exists`, or
`pipe_exists` on a Reader or Writer) is a FIFO with mode 0o660. -/
theorem default_mode_spec (fs fs' : FileSystem) (r : Reader) (w : Writer)
    (pi : Pipe) :
    (∀ m, create_pipe fs pi.inner (some m) = mkfifo fs pi.inner m) ∧
    (create_pipe fs pi.inner none =
        mkfifo fs pi.inner (modeFromBitsTruncate 0o660) ∧
      modeFromBitsTruncate 0o660 = 0o660) ∧
    (pi.ensure_exists fs = .ok fs' →
      ∀ q e, lookupEntry fs q = none → lookupEntry fs' q = some e →
        e.kind = .fifo ∧ e.mode = 0o660) ∧
    (∀ r', r.pipe_exists fs = .ok (fs', r') →
      ∀ q e, lookupEntry fs q = none → lookupEntry fs' q = some e →
        e.kind = .fifo ∧ e.mode = 0o660) ∧
    (∀ w', w.pipe_exists fs = .ok (fs', w') →
      ∀ q e, lookupEntry fs q = none → lookupEntry fs' q = some e →
        e.kind = .fifo ∧ e.mode = 0o660) := by
  refine ⟨fun m => rfl, ⟨rfl, by decide⟩, ?_, ?_, ?_⟩
  · intro hok q e h0 h1
    exact ensure_exists_created_entry pi fs fs' hok q e h0 h1
  · intro r' hok q e h0 h1
    exact ensure_exists_created_entry r.path fs fs'
      (reader_pipe_exists_ok r fs fs' r' hok) q e h0 h1
  · intro w' hok q e h0 h1
    exact ensure_exists_created_entry w.path fs fs'
      (writer_pipe_exists_ok w fs fs' w' hok) q e h0 h1

/-- Witness for C10: the entry created by `ensure_exists` at path `[119]`
on the empty filesystem is a FIFO with mode 0o660. -/
theorem default_mode_spec_witness :
    (⟨.fifo, 0o660, []⟩ : Entry).kind = .fifo ∧
    (⟨.fifo, 0o660, []⟩ : Entry).mode = 0o660 :=
  ((default_mode_spec [] [([119], ⟨.fifo, 0o660, []⟩)]
        (Reader.from_path (Pipe.new [119]))
        (Writer.from_path (Pipe.new [119])) (Pipe.new [119])).2.2.1
      (by decide) [119] ⟨.fifo, 0o660, []⟩ (by decide) (by decide))

theorem writeAllAt_content_take (e : Entry) (data : List Nat) :
    (writeAllAt e data).content.take data.length = data := by
  obtain ⟨k, m, c⟩ := e
  cases k <;> simp [writeAllAt]

/-- Claim C2: the suspending writes `async_write`/`async_write_str` open
the path without creating it, so they fail with a not-found I/O error when
no entry exists there; on an existing entry they succeed and all the given
bytes are written (they form a prefix of the new content, the whole
content for a FIFO). -/
theorem async_write_spec (fs : FileSystem) (w : Writer)
    (data s : List Nat) :
    (lookupEntry fs w.path.inner = none →
      w.async_write fs data = .err .notFound ∧
      w.async_write_str fs s = .err .notFound) ∧
    (∀ e, lookupEntry fs w.path.inner = some e →
      w.async_write fs data =
          .ok (setEntry fs w.path.inner (writeAllAt e data)) ∧
        (writeAllAt e data).content.take data.length = data ∧
        w.async_write_str fs s =
          .ok (setEntry fs w.path.inner (writeAllAt e (utf8Encode s))) ∧
        (writeAllAt e (utf8Encode s)).content.take (utf8Encode s).length =
          utf8Encode s) := by
  constructor
  · intro h
    constructor <;>
      simp [Writer.async_write, Writer.async_write_str, Writer._write, h]
  · intro e he
    refine ⟨?_, writeAllAt_content_take e data, ?_,
      writeAllAt_content_take e (utf8Encode s)⟩
    · simp [Writer.async_write, Writer._write, he]
    · simp [Writer.async_write_str, Writer._write, he]

/-- Witness for C2: on an empty filesystem both suspending writes fail
with not-found. -/
theorem async_write_spec_witness :
    (Writer.from_path (Pipe.new [120])).async_write [] [1, 2] =
        .err .notFound ∧
      (Writer.from_path (Pipe.new [120])).async_write_str [] [104] =
        .err .notFound :=
  ((async_write_spec [] (Writer.from_path (Pipe.new [120])) [1, 2]
      [104]).1 (by decide))

/-- Claim C3: the blocking writes open with create-if-missing, truncating
semantics (`File::create`): when the path is absent they create a regular
file holding the data instead of failing, and when an entry exists they
open it (an existing FIFO stays a FIFO, mode kept) and its content becomes
exactly the written bytes; this differs from the suspending write, which
fails with not-found on an absent path. -/
theorem blocking_write_spec (fs : FileSystem) (w : Writer)
    (data s : List Nat) (hpath : validUtf8 w.path.inner = true) :
    (lookupEntry fs w.path.inner = none →
      w.write fs data =
          .ok (setEntry fs w.path.inner ⟨.regular, 0o666, data⟩) ∧
        w.write_str fs s =
          .ok (setEntry fs w.path.inner ⟨.regular, 0o666, utf8Encode s⟩) ∧
        w.async_write fs data = .err .notFound) ∧
    (∀ e, lookupEntry fs w.path.inner = some e →
      w.write fs data =
          .ok (setEntry fs w.path.inner ⟨e.kind, e.mode, data⟩) ∧
        w.write_str fs s =
          .ok (setEntry fs w.path.inner ⟨e.kind, e.mode, utf8Encode s⟩)) := by
  constructor
  · intro h
    refine ⟨?_, ?_, ?_⟩ <;>
      simp [Writer.write, Writer.write_str, Writer.async_write,
        Writer._write, fileCreateWriteAll, hpath, h]
  · intro e he
    constructor <;>
      simp [Writer.write, Writer.write_str, fileCreateWriteAll, hpath, he]

/-- Witness for C3: with path `[104]` (valid UTF-8) absent, the blocking
write creates a regular file with the data while the suspending write
fails. -/
theorem blocking_write_spec_witness :
    (Writer.from_path (Pipe.new [104])).write [] [1, 2] =
        .ok (setEntry [] [104] ⟨.regular, 0o666, [1, 2]⟩) ∧
      (Writer.from_path (Pipe.new [104])).write_str [] [104] =
        .ok (setEntry [] [104] ⟨.regular, 0o666, utf8Encode [104]⟩) ∧
      (Writer.from_path (Pipe.new [104])).async_write [] [1, 2] =
        .err .notFound :=
  ((blocking_write_spec [] (Writer.from_path (Pipe.new [104])) [1, 2]
      [104] (by decide)).1 (by decide))

/-- Claim C1: bytes written by a Writer to an existing FIFO at a path and
then read by a Reader at the same path with the matching arity come back
exactly: a successful blocking `write` followed by blocking `read` returns
the written bytes, and a successful suspending `async_write` followed by
`async_read` returns the written bytes. -/
theorem round_trip_spec (fs fs' : FileSystem) (p : FsPath)
    (data : List Nat) :
    ((Pipe.new p).writer.write fs data = .ok fs' →
      (Pipe.new p).reader.read fs' = .ok data) ∧
    (∀ e, lookupEntry fs p = some e → e.kind = .fifo →
      (Pipe.new p).writer.async_write fs data = .ok fs' →
      (Pipe.new p).reader.async_read fs' = .ok data) := by
  constructor
  · intro h
    by_cases hv : validUtf8 p = true
    · cases hl : lookupEntry fs p with
      | none =>
        have h2 : setEntry fs p ⟨.regular, 0o666, data⟩ = fs' := by
          simpa [Writer.write, Pipe.writer, Writer.from_path, Pipe.new,
            fileCreateWriteAll, hv, hl] using h
        subst h2
        simp [Reader.read, fsRead, Pipe.reader, Reader.from_path,
          Pipe.new, lookupEntry_setEntry]
      | some e =>
        have h2 : setEntry fs p ⟨e.kind, e.mode, data⟩ = fs' := by
          simpa [Writer.write, Pipe.writer, Writer.from_path, Pipe.new,
            fileCreateWriteAll, hv, hl] using h
        subst h2
        simp [Reader.read, fsRead, Pipe.reader, Reader.from_path,
          Pipe.new, lookupEntry_setEntry]
    · exfalso
      have hv' : validUtf8 p = false := by simpa using hv
      simp [Writer.write, Pipe.writer, Writer.from_path, Pipe.new,
        hv'] at h
  · intro e hl hk h
    have h2 : setEntry fs p (writeAllAt e data) = fs' := by
      simpa [Writer.async_write, Writer._write, Pipe.writer,
        Writer.from_path, Pipe.new, hl] using h
    subst h2
    simp [Reader.async_read, fsRead, Pipe.reader, Reader.from_path,
      Pipe.new, lookupEntry_setEntry, writeAllAt, hk]

/-- Witness for C1: both round trips at path `[112]` with bytes
`[5, 6, 7]` through a FIFO entry. -/
theorem round_trip_spec_witness :
    (Pipe.new [112]).reader.read
        [([112], ⟨.fifo, 0o660, [5, 6, 7]⟩)] = .ok [5, 6, 7] ∧
      (Pipe.new [112]).reader.async_read
        [([112], ⟨.fifo, 0o660, [5, 6, 7]⟩)] = .ok [5, 6, 7] :=
  ⟨(round_trip_spec [([112], ⟨.fifo, 0o660, [0]⟩)]
        [([112], ⟨.fifo, 0o660, [5, 6, 7]⟩)] [112] [5, 6, 7]).1
      (by decide),
    (round_trip_spec [([112], ⟨.fifo, 0o660, [0]⟩)]
        [([112], ⟨.fifo, 0o660, [5, 6, 7]⟩)] [112] [5, 6, 7]).2
      ⟨.fifo, 0o660, [0]⟩ (by decide) (by decide) (by decide)⟩

/-- Claim C6: the text-returning reads (`string`, `async_read_str`) fail
with the decoding error (`InvalidData`) exactly when the accumulated bytes
are not valid UTF-8, and on valid bytes return exactly the decoded
codepoints — never a corrupted string. -/
theorem text_read_spec (fs : FileSystem) (r : Reader) (e : Entry)
    (h : lookupEntry fs r.path.inner = some e) :
    (utf8Decode e.content = none →
      r.string fs = .err .invalidData ∧
      r.async_read_str fs = .err .invalidData) ∧
    (∀ cs, utf8Decode e.content = some cs →
      r.string fs = .ok cs ∧ r.async_read_str fs = .ok cs) := by
  constructor
  · intro hd
    constructor <;>
      simp [Reader.string, Reader.async_read_str, fsReadToString, h, hd]
  · intro cs hd
    constructor <;>
      simp [Reader.string, Reader.async_read_str, fsReadToString, h, hd]

/-- Witness for C6: the byte `0xFF` makes both text reads fail with
`InvalidData`; the valid bytes `[104, 105]` decode to `[104, 105]`. -/
theorem text_read_spec_witness :
    ((Reader.from_path (Pipe.new [113])).string
          [([113], ⟨.fifo, 0o660, [255]⟩)] = .err .invalidData ∧
      (Reader.from_path (Pipe.new [113])).async_read_str
          [([113], ⟨.fifo, 0o660, [255]⟩)] = .err .invalidData) ∧
    ((Reader.from_path (Pipe.new [113])).string
          [([113], ⟨.fifo, 0o660, [104, 105]⟩)] = .ok [104, 105] ∧
      (Reader.from_path (Pipe.new [113])).async_read_str
          [([113], ⟨.fifo, 0o660, [104, 105]⟩)] = .ok [104, 105]) :=
  ⟨(text_read_spec [([113], ⟨.fifo, 0o660, [255]⟩)]
        (Reader.from_path (Pipe.new [113])) ⟨.fifo, 0o660, [255]⟩
        (by decide)).1 (by decide),
    (text_read_spec [([113], ⟨.fifo, 0o660, [104, 105]⟩)]
        (Reader.from_path (Pipe.new [113])) ⟨.fifo, 0o660, [104, 105]⟩
        (by decide)).2 [104, 105] (by decide)⟩

/-- Claim C8: the only panic in the component is the `unwrap` of
`to_str()` in the blocking writes: `write` and `write_str` panic exactly
when the path is not representable as valid UTF-8 text (programmer
misuse), and with a valid path no input makes them panic; every other
operation returns its failures as error values (embedded with `RResult`,
which has no panic case at all). -/
theorem no_panic_spec (fs : FileSystem) (w : Writer) (data s : List Nat) :
    (w.write fs data = .panic ↔ validUtf8 w.path.inner = false) ∧
    (w.write_str fs s = .panic ↔ validUtf8 w.path.inner = false) := by
  constructor
  · constructor
    · intro h
      by_cases hv : validUtf8 w.path.inner = true
      · exfalso
        cases hl : lookupEntry fs w.path.inner <;>
          simp [Writer.write, fileCreateWriteAll, hv, hl] at h
      · simpa using hv
    · intro h
      simp [Writer.write, h]
  · constructor
    · intro h
      by_cases hv : validUtf8 w.path.inner = true
      · exfalso
        cases hl : lookupEntry fs w.path.inner <;>
          simp [Writer.write_str, fileCreateWriteAll, hv, hl] at h
      · simpa using hv
    · intro h
      simp [Writer.write_str, h]

end FifoPipe
